import Mathlib

/-!
Verification of the `ayon-local-config` addon core: the JSON-backed settings
storage (`client/ayon_local_config/storage.py`), the environment-variable
registry (`client/ayon_local_config/environment_registry.py`), and the sandbox
copy/count logic
(`client/ayon_local_config/plugins/actions/action_set_ayon_sandbox_path.py`).

Python `dict`s (as produced by `json.loads` and mutated by the code) are
modelled as association lists `List (String × α)` with the update-in-place
insertion that matches `d[k] = v` (replace the value at the first occurrence of
the key, keeping its position; append at the end when the key is new), and
`lookupA`/`eraseA` matching `d.get(k)` / `del d[k]`.  Keys of a real Python
dict are unique, so theorems that need uniqueness take a `Nodup` hypothesis on
the key list.  JSON values are modelled by the inductive `Json` (numbers as
integers).
-/

/-- Python `d.get(k)` on an association-list dict: value at the first
occurrence of the key. -/
def lookupA {α : Type} (k : String) : List (String × α) → Option α
  | [] => none
  | p :: rest => if k = p.1 then some p.2 else lookupA k rest

/-- Python `d[k] = v` on an association-list dict: replace the value at the
first occurrence of `k` keeping its position, or append a new binding. -/
def insertA {α : Type} (k : String) (v : α) : List (String × α) → List (String × α)
  | [] => [(k, v)]
  | p :: rest => if k = p.1 then (k, v) :: rest else p :: insertA k v rest

/-- Python `del d[k]` on an association-list dict: drop the first occurrence
of the key (no-op when absent). -/
def eraseA {α : Type} (k : String) : List (String × α) → List (String × α)
  | [] => []
  | p :: rest => if k = p.1 then rest else p :: eraseA k rest

/-- Python `list(d.keys())`. -/
def keysA {α : Type} (l : List (String × α)) : List String :=
  l.map Prod.fst

/-- Left-biased choice on `Option`, used to state lookup lemmas. -/
def oor {α : Type} (a b : Option α) : Option α :=
  match a with
  | some v => some v
  | none => b

theorem lookupA_insertA_self {α : Type} (k : String) (v : α) (l : List (String × α)) :
    lookupA k (insertA k v l) = some v := by
  induction l with
  | nil => simp [insertA, lookupA]
  | cons p rest ih =>
    by_cases h : k = p.1 <;> simp [insertA, lookupA, h, ih]

theorem lookupA_insertA_ne {α : Type} {k k₀ : String} {v : α} {l : List (String × α)}
    (h : k ≠ k₀) : lookupA k (insertA k₀ v l) = lookupA k l := by
  induction l with
  | nil => simp [insertA, lookupA, h]
  | cons p rest ih =>
    by_cases hp : k₀ = p.1
    · subst hp
      simp [insertA, lookupA, h, ih]
    · by_cases hk : k = p.1 <;> simp [insertA, lookupA, hp, hk, ih]

theorem lookupA_eraseA_ne {α : Type} {k k₀ : String} {l : List (String × α)}
    (h : k ≠ k₀) : lookupA k (eraseA k₀ l) = lookupA k l := by
  induction l with
  | nil => simp [eraseA]
  | cons p rest ih =>
    by_cases hp : k₀ = p.1
    · subst hp
      simp [eraseA, lookupA, h]
    · by_cases hk : k = p.1 <;> simp [eraseA, lookupA, hp, hk, ih]

theorem lookupA_eq_none_of_not_mem_keys {α : Type} {k : String}
    {l : List (String × α)} (h : k ∉ keysA l) : lookupA k l = none := by
  induction l with
  | nil => simp [lookupA]
  | cons p rest ih =>
    simp only [keysA, List.map_cons, List.mem_cons] at h
    push_neg at h
    simp only [lookupA, if_neg h.1]
    exact ih (by simpa [keysA] using h.2)

theorem lookupA_eraseA_self {α : Type} {k : String} {l : List (String × α)}
    (h : (keysA l).Nodup) : lookupA k (eraseA k l) = none := by
  induction l with
  | nil => simp [eraseA, lookupA]
  | cons p rest ih =>
    simp only [keysA, List.map_cons, List.nodup_cons] at h
    by_cases hp : k = p.1
    · subst hp
      simp only [eraseA, if_pos rfl]
      exact lookupA_eq_none_of_not_mem_keys h.1
    · simp [eraseA, lookupA, hp, ih h.2, Ne.symm hp]

theorem eraseA_sublist {α : Type} (k : String) (l : List (String × α)) :
    List.Sublist (eraseA k l) l := by
  induction l with
  | nil => simp [eraseA]
  | cons p rest ih =>
    by_cases hp : k = p.1
    · simp [eraseA, hp, List.sublist_cons_self]
    · simpa [eraseA, hp] using List.Sublist.cons₂ p ih

theorem keysA_eraseA_nodup {α : Type} {k : String} {l : List (String × α)}
    (h : (keysA l).Nodup) : (keysA (eraseA k l)).Nodup :=
  h.sublist ((eraseA_sublist k l).map Prod.fst)

/-- JSON values as produced by `json.loads` (numbers modelled as integers). -/
inductive Json where
  | null
  | bool (b : Bool)
  | num (n : Int)
  | str (s : String)
  | arr (elems : List Json)
  | obj (fields : List (String × Json))

/-- Python `isinstance(x, dict)` on a parsed JSON value. -/
def is_dict : Json → Bool
  | .obj _ => true
  | _ => false

mutual
/-- Python `str()` of a parsed JSON value, used by the migration fallback
branch `migrated_vars[var_name] = str(var_data)` in
`EnvironmentVariableRegistry._migrate_environment_variables`. -/
def pyStr : Json → String
  | .null => "None"
  | .bool true => "True"
  | .bool false => "False"
  | .num n => toString n
  | .str s => "\x27" ++ s ++ "\x27"
  | .arr elems => "[" ++ pyStrList elems ++ "]"
  | .obj fields => "\x7b" ++ pyStrFields fields ++ "\x7d"

/-- Comma-separated rendering of a JSON array body. -/
def pyStrList : List Json → String
  | [] => ""
  | [j] => pyStr j
  | j :: rest => pyStr j ++ ", " ++ pyStrList rest

/-- Comma-separated rendering of a JSON object body. -/
def pyStrFields : List (String × Json) → String
  | [] => ""
  | [(k, v)] => "\x27" ++ k ++ "\x27: " ++ pyStr v
  | (k, v) :: rest => "\x27" ++ k ++ "\x27: " ++ pyStr v ++ ", " ++ pyStrFields rest
end

/-- Per-project settings group: `config["projects"][p][group_id]`, a dict
from setting id to value. -/
abbrev GroupConfig := List (String × Json)

/-- One project's configuration: a dict from group id to group config. -/
abbrev ProjectConfig := List (String × GroupConfig)

/-- The top-level configuration dict persisted in `localconfig.json`.
An `Option` field is `none` when the corresponding key is absent from the
dict (the code guards each access with `"projects" not in config` /
`config.get(..., {})`); `last_selected_project` holds the raw JSON value
stored under that key (`Json.null` for Python `None`). -/
structure Config where
  projects : Option (List (String × ProjectConfig))
  environment_variables : Option (List (String × Json))
  last_selected_project : Option Json

/-- The state of the config file `localconfig.json`, by the case analysis
`LocalConfigStorage.load_config` performs: missing file, zero-size file,
whitespace-only content, content that makes `json.loads` raise, or valid
JSON already decoded into a `Config`. -/
inductive FileState where
  | absent
  | emptyFile
  | whitespaceOnly
  | invalidJson
  | validJson (c : Config)

/-- The `default_config` dict built by
`LocalConfigStorage._initialize_default_config`:
`{"projects": {}, "environment_variables": {}, "last_selected_project": None}`. -/
def default_config : Config :=
  { projects := some []
    environment_variables := some []
    last_selected_project := some Json.null }

/-- `LocalConfigStorage.save_config`: writes the config as JSON and returns
`True` (I/O failure is not modelled). -/
def save_config (c : Config) : FileState × Bool :=
  (FileState.validJson c, true)

/-- `LocalConfigStorage._initialize_default_config`: builds `default_config`,
saves it to the file, and returns it. -/
def initialize_default_config : Config × FileState :=
  (default_config, (save_config default_config).1)

/-- `LocalConfigStorage.load_config`: returns the parsed content when the
file holds valid JSON; on a missing, empty, whitespace-only or unparseable
file it falls into `_initialize_default_config`, which also rewrites the
file.  The second component is the file state afterwards. -/
def load_config : FileState → Config × FileState
  | .absent => (initialize_default_config.1, initialize_default_config.2)
  | .emptyFile => (initialize_default_config.1, initialize_default_config.2)
  | .whitespaceOnly => (initialize_default_config.1, initialize_default_config.2)
  | .invalidJson => (initialize_default_config.1, initialize_default_config.2)
  | .validJson c => (c, .validJson c)

/-- `LocalConfigStorage.get_setting_value`:
`config.get("projects", {}).get(project, {}).get(group_id, {}).get(setting_id, default_value)`. -/
def get_setting_value (fs : FileState) (project_name group_id setting_id : String)
    (default_value : Json) : Json :=
  let config := (load_config fs).1
  let project_config := (lookupA project_name (config.projects.getD [])).getD []
  ((lookupA setting_id ((lookupA group_id project_config).getD [])).getD default_value)

/-- `LocalConfigStorage.set_setting_value`: loads the config, inserts empty
dicts for the missing levels (`if "projects" not in config`, ...), assigns
`config["projects"][project][group_id][setting_id] = value`, and saves. -/
def set_setting_value (fs : FileState) (project_name group_id setting_id : String)
    (value : Json) : FileState × Bool :=
  let config := (load_config fs).1
  let ps := config.projects.getD []
  let project_config := (lookupA project_name ps).getD []
  let group_config := (lookupA group_id project_config).getD []
  save_config
    { config with
        projects :=
          some (insertA project_name
            (insertA group_id (insertA setting_id value group_config) project_config) ps) }

/-- `LocalConfigStorage.delete_project`: deletes the project's entry and
saves when `"projects" in config and project_name in config["projects"]`;
otherwise returns `True` without saving (though `load_config` itself may
have rewritten a missing or unreadable file). -/
def delete_project (fs : FileState) (project_name : String) : FileState × Bool :=
  let loaded := load_config fs
  match loaded.1.projects with
  | some ps =>
    if (lookupA project_name ps).isSome then
      save_config { loaded.1 with projects := some (eraseA project_name ps) }
    else
      (loaded.2, true)
  | none => (loaded.2, true)

/-- `LocalConfigStorage.get_available_projects`.  `ayon_projects` is the
list `_get_ayon_projects()` returns; `server_fails` models an exception
escaping the `try` block (taking the fallback path).  The main path
deduplicates `ayon_projects + local_projects` (Python `list(set(...))`),
removes `"default"`, and sorts; the fallback path returns the local config's
project keys with `"default"` removed. -/
def get_available_projects (ayon_projects : List String) (server_fails : Bool)
    (fs : FileState) : List String :=
  if server_fails then
    let config := (load_config fs).1
    let local_projects := keysA (config.projects.getD [])
    local_projects.erase "default"
  else
    let config := (load_config fs).1
    let local_projects := keysA (config.projects.getD [])
    let all_projects := (ayon_projects ++ local_projects).dedup
    (all_projects.erase "default").mergeSort (fun a b => a ≤ b)

/-- State touched by `EnvironmentVariableRegistry`: its in-memory map
`_registered_vars`, the process environment `os.environ`, and the backing
config file. -/
structure RegistryState where
  registered_vars : List (String × String)
  environ : List (String × String)
  file : FileState

/-- One iteration of the loop in
`EnvironmentVariableRegistry._migrate_environment_variables`: a dict entry
keeps its name; a dict value with a `"value"` key becomes that inner value,
a dict value without one becomes `str(var_data)`, and any non-dict value is
kept as is (`migrated_vars[var_name] = ...` is `insertA`). -/
def migrate_step (migrated_vars : List (String × Json)) (p : String × Json) :
    List (String × Json) :=
  match p.2 with
  | .obj fields =>
    match lookupA "value" fields with
    | some v => insertA p.1 v migrated_vars
    | none => insertA p.1 (Json.str (pyStr (.obj fields))) migrated_vars
  | v => insertA p.1 v migrated_vars

/-- `EnvironmentVariableRegistry._migrate_environment_variables` (the
returned map; the conditional re-save of source lines 70-73 only touches
storage): runs `migrate_step` over the stored entries in iteration order,
starting from an empty dict. -/
def migrate_environment_variables (env_vars : List (String × Json)) :
    List (String × Json) :=
  env_vars.foldl migrate_step []

/-- The value `migrate_step` assigns for one entry, as a function of the
stored value (used to state the migration lemmas). -/
def migrate_val : Json → Json
  | .obj fields =>
    match lookupA "value" fields with
    | some v => v
    | none => .str (pyStr (.obj fields))
  | v => v

/-- `EnvironmentVariableRegistry._save_registered_variables`: loads the
config, overwrites its `environment_variables` entry with the registry map,
and saves. -/
def save_registered_variables (st : RegistryState) : RegistryState :=
  let config := (load_config st.file).1
  let config :=
    { config with
        environment_variables :=
          some (st.registered_vars.map (fun p => (p.1, Json.str p.2))) }
  { st with file := (save_config config).1 }

/-- `EnvironmentVariableRegistry.register_environment_variable`: stores the
value in `_registered_vars`, sets `os.environ[var_name]`, saves to storage
when `persistent`, and returns `True`. -/
def register_environment_variable (st : RegistryState) (var_name value : String)
    (persistent : Bool) : RegistryState × Bool :=
  let st1 :=
    { st with
        registered_vars := insertA var_name value st.registered_vars
        environ := insertA var_name value st.environ }
  (if persistent then save_registered_variables st1 else st1, true)

/-- `EnvironmentVariableRegistry.unregister_environment_variable`: returns
`False` untouched when the variable is not registered; otherwise deletes it
from `os.environ` (if present) and from the registry, saves, and returns
`True`. -/
def unregister_environment_variable (st : RegistryState) (var_name : String) :
    RegistryState × Bool :=
  if (lookupA var_name st.registered_vars).isNone then
    (st, false)
  else
    let st1 :=
      { st with
          environ := eraseA var_name st.environ
          registered_vars := eraseA var_name st.registered_vars }
    (save_registered_variables st1, true)

/-- `EnvironmentVariableRegistry.update_environment_variable`: returns
`False` untouched when the variable is not registered; otherwise overwrites
the registry entry and `os.environ`, saves, and returns `True`. -/
def update_environment_variable (st : RegistryState) (var_name new_value : String) :
    RegistryState × Bool :=
  if (lookupA var_name st.registered_vars).isNone then
    (st, false)
  else
    let st1 :=
      { st with
          registered_vars := insertA var_name new_value st.registered_vars
          environ := insertA var_name new_value st.environ }
    (save_registered_variables st1, true)

/-- `EnvironmentVariableRegistry.restore_environment_variables`: sets
`os.environ[var_name] = value` for every entry of `_registered_vars`, in
order. -/
def restore_environment_variables (st : RegistryState) : RegistryState :=
  { st with
      environ := st.registered_vars.foldl (fun e p => insertA p.1 p.2 e) st.environ }

/-- The skip test of both `_count_and_size_bytes` and `_copy_sandbox_files`:
`entry.name.startswith(".") or entry.name.startswith("~")` (the code copies
or counts a file only when this is false).  For the one-character prefixes
used by the source, `startswith` is exactly a first-character test, which is
how it is embedded here. -/
def hidden_name (name : String) : Bool :=
  match name.data with
  | [] => false
  | c :: _ => c = '.' || c = '~'

/-- A directory listing as scanned by `os.scandir`: a sequence of entries,
each a regular file with a name and byte size, or a subdirectory with its
own listing. -/
inductive FSDir where
  | nil
  | consFile (name : String) (size : Nat) (rest : FSDir)
  | consDir (name : String) (children : FSDir) (rest : FSDir)

/-- `SetAyonSandboxPathAction._count_and_size_bytes`: walks every
subdirectory, counts a file and adds its size only when its name does not
start with `"."` or `"~"`.  The stack-driven loop of the source visits every
entry exactly once, so the totals are the recursive sums. -/
def count_and_size_bytes : FSDir → Nat × Nat
  | .nil => (0, 0)
  | .consFile name size rest =>
    let r := count_and_size_bytes rest
    if hidden_name name then r else (r.1 + 1, r.2 + size)
  | .consDir _ children rest =>
    let c := count_and_size_bytes children
    let r := count_and_size_bytes rest
    (c.1 + r.1, c.2 + r.2)

/-- The copy pass of `SetAyonSandboxPathAction._copy_sandbox_files`:
recreates every directory under the destination and copies every file whose
name does not start with `"."` or `"~"`, preserving relative paths. -/
def copy_files : FSDir → FSDir
  | .nil => .nil
  | .consFile name size rest =>
    if hidden_name name then copy_files rest
    else .consFile name size (copy_files rest)
  | .consDir name children rest =>
    .consDir name (copy_files children) (copy_files rest)

/-- `SetAyonSandboxPathAction._copy_sandbox_files` on an initially empty
destination: counts the source first and returns `True` with nothing copied
when the count is zero; otherwise runs the copy pass unless the progress
dialog was cancelled (`cancelled`, in which case it returns `False`, here
`none`).  The result is the destination tree on success. -/
def copy_sandbox_files (source : FSDir) (cancelled : Bool) : Option FSDir :=
  if (count_and_size_bytes source).1 = 0 then some FSDir.nil
  else if cancelled then none
  else some (copy_files source)

/-- C1: for every group id, setting id and JSON value, if
`LocalConfigStorage.set_setting_value(group_id, setting_id, value)` returns
`True`, then a subsequent `get_setting_value(group_id, setting_id)` on the
same storage (same project name) returns that same value, whatever default
is supplied. -/
theorem C1_set_then_get_roundtrip (fs : FileState)
    (project_name group_id setting_id : String) (value default_value : Json)
    (_h : (set_setting_value fs project_name group_id setting_id value).2 = true) :
    get_setting_value (set_setting_value fs project_name group_id setting_id value).1
      project_name group_id setting_id default_value = value := by
  simp [set_setting_value, get_setting_value, save_config, load_config,
        lookupA_insertA_self]

theorem C1_witness :
    (set_setting_value FileState.absent "default" "grp" "key" (Json.str "v")).2 = true ∧
    get_setting_value
        (set_setting_value FileState.absent "default" "grp" "key" (Json.str "v")).1
        "default" "grp" "key" Json.null = Json.str "v" :=
  ⟨rfl, C1_set_then_get_roundtrip FileState.absent "default" "grp" "key"
    (Json.str "v") Json.null rfl⟩

/-- C6: `set_setting_value` on a storage bound to project `P` changes only
the entry for `(P, group_id, setting_id)`: the `environment_variables` map
and `last_selected_project` are unchanged, every other project's stored
entry is unchanged, and every setting at a different (project, group,
setting) coordinate reads back unchanged. -/
theorem C6_set_setting_value_frame (fs : FileState) (P g s : String) (v : Json) :
    ((load_config (set_setting_value fs P g s v).1).1.environment_variables
        = (load_config fs).1.environment_variables) ∧
    ((load_config (set_setting_value fs P g s v).1).1.last_selected_project
        = (load_config fs).1.last_selected_project) ∧
    (∀ q : String, q ≠ P →
      lookupA q (((load_config (set_setting_value fs P g s v).1).1.projects).getD [])
        = lookupA q (((load_config fs).1.projects).getD [])) ∧
    (∀ q h' k : String, ∀ d : Json, ¬(q = P ∧ h' = g ∧ k = s) →
      get_setting_value (set_setting_value fs P g s v).1 q h' k d
        = get_setting_value fs q h' k d) := by
  refine ⟨rfl, rfl, ?_, ?_⟩
  · intro q hq
    simp [set_setting_value, load_config, save_config, lookupA_insertA_ne hq]
  · intro q h' k d hne
    by_cases hq : q = P
    · subst hq
      by_cases hg : h' = g
      · subst hg
        have hk : k ≠ s := by tauto
        simp [set_setting_value, get_setting_value, load_config, save_config,
              lookupA_insertA_self, lookupA_insertA_ne hk]
      · simp [set_setting_value, get_setting_value, load_config, save_config,
              lookupA_insertA_self, lookupA_insertA_ne hg]
    · simp [set_setting_value, get_setting_value, load_config, save_config,
            lookupA_insertA_ne hq]

theorem C6_witness :
    get_setting_value
        (set_setting_value FileState.absent "projA" "grp" "key" (Json.num 1)).1
        "projB" "grp" "key" Json.null
      = get_setting_value FileState.absent "projB" "grp" "key" Json.null :=
  (C6_set_setting_value_frame FileState.absent "projA" "grp" "key"
    (Json.num 1)).2.2.2 "projB" "grp" "key" Json.null (by decide)

/-- C7: `load_config` never propagates an error: on an absent, empty,
whitespace-only or unparseable config file it returns the default structure
`{"projects": {}, "environment_variables": {}, "last_selected_project": None}`,
and it returns the parsed content exactly when the file holds valid JSON. -/
theorem C7_load_config_never_fails (fs : FileState) :
    ((∀ c : Config, fs ≠ FileState.validJson c) →
      (load_config fs).1 =
        { projects := some []
          environment_variables := some []
          last_selected_project := some Json.null }) ∧
    (∀ c : Config, fs = FileState.validJson c → (load_config fs).1 = c) := by
  constructor
  · intro h
    cases fs
    case validJson c => exact absurd rfl (h c)
    all_goals rfl
  · intro c h
    subst h
    rfl

theorem C7_witness :
    ((∀ c : Config, FileState.absent ≠ FileState.validJson c) ∧
      (load_config FileState.absent).1 =
        { projects := some []
          environment_variables := some []
          last_selected_project := some Json.null }) ∧
    (load_config (FileState.validJson default_config)).1 = default_config := by
  refine ⟨⟨(fun _ h => nomatch h), ?_⟩, ?_⟩
  · exact (C7_load_config_never_fails FileState.absent).1 (fun _ h => nomatch h)
  · exact (C7_load_config_never_fails (FileState.validJson default_config)).2
      default_config rfl

/-- C10: unregistering a variable that is not in the registry returns
`False` and changes nothing at all: the registry map, the persisted
configuration and `os.environ` are exactly as before. -/
theorem C10_unregister_missing_is_noop (st : RegistryState) (var_name : String)
    (h : lookupA var_name st.registered_vars = none) :
    unregister_environment_variable st var_name = (st, false) := by
  simp [unregister_environment_variable, h]

theorem C10_witness :
    unregister_environment_variable
        { registered_vars := [("A", "1")], environ := [], file := FileState.absent } "B"
      = ({ registered_vars := [("A", "1")], environ := [], file := FileState.absent }, false) :=
  C10_unregister_missing_is_noop _ _ rfl

theorem lookupA_append {α : Type} (k : String) (l₁ l₂ : List (String × α)) :
    lookupA k (l₁ ++ l₂) = oor (lookupA k l₁) (lookupA k l₂) := by
  induction l₁ with
  | nil => simp [lookupA, oor]
  | cons p rest ih =>
    by_cases h : k = p.1 <;> simp [lookupA, h, ih, oor]

theorem lookupA_insertA_oor {α : Type} (k : String) (p : String × α)
    (l : List (String × α)) :
    lookupA k (insertA p.1 p.2 l) = oor (lookupA k [p]) (lookupA k l) := by
  by_cases h : k = p.1
  · subst h
    simp [lookupA, lookupA_insertA_self, oor]
  · simp [lookupA, lookupA_insertA_ne h, h, oor]

theorem oor_assoc {α : Type} (a b c : Option α) :
    oor (oor a b) c = oor a (oor b c) := by
  cases a <;> simp [oor]

theorem lookupA_foldl_insertA {α : Type} (vars : List (String × α))
    (e : List (String × α)) (k : String) :
    lookupA k (vars.foldl (fun acc p => insertA p.1 p.2 acc) e)
      = oor (lookupA k vars.reverse) (lookupA k e) := by
  induction vars generalizing e with
  | nil => simp [lookupA, oor]
  | cons p vs ih =>
    simp only [List.foldl_cons, List.reverse_cons]
    rw [ih, lookupA_append, lookupA_insertA_oor, oor_assoc]

/-- C2: `restore_environment_variables` is idempotent on the process
environment: for every registry state, running it twice leaves `os.environ`
binding every name to exactly what a single run gives it. -/
theorem C2_restore_idempotent (st : RegistryState) (k : String) :
    lookupA k (restore_environment_variables (restore_environment_variables st)).environ
      = lookupA k (restore_environment_variables st).environ := by
  simp only [restore_environment_variables]
  rw [lookupA_foldl_insertA, lookupA_foldl_insertA]
  cases lookupA k st.registered_vars.reverse <;> simp [oor]

/-- C5: the registry keeps `os.environ` in sync with its stored map: a
successful `register` leaves both mapping the variable to the value, a
successful `unregister` removes it from both, and a successful `update`
leaves both mapping it to the new value.  The `Nodup` hypotheses state that
the registry map and `os.environ` are genuine Python dicts (unique keys). -/
theorem C5_registry_keeps_environ_in_sync (st : RegistryState)
    (var_name value new_value : String) (persistent : Bool)
    (hvars : (keysA st.registered_vars).Nodup) (henv : (keysA st.environ).Nodup) :
    ((register_environment_variable st var_name value persistent).2 = true →
      lookupA var_name
          (register_environment_variable st var_name value persistent).1.registered_vars
        = some value ∧
      lookupA var_name
          (register_environment_variable st var_name value persistent).1.environ
        = some value) ∧
    ((unregister_environment_variable st var_name).2 = true →
      lookupA var_name
          (unregister_environment_variable st var_name).1.registered_vars = none ∧
      lookupA var_name (unregister_environment_variable st var_name).1.environ
        = none) ∧
    ((update_environment_variable st var_name new_value).2 = true →
      lookupA var_name
          (update_environment_variable st var_name new_value).1.registered_vars
        = some new_value ∧
      lookupA var_name (update_environment_variable st var_name new_value).1.environ
        = some new_value) := by
  refine ⟨?_, ?_, ?_⟩
  · intro _
    cases persistent <;>
      simp [register_environment_variable, save_registered_variables,
            lookupA_insertA_self]
  · intro h
    by_cases hn : (lookupA var_name st.registered_vars).isNone
    · simp [unregister_environment_variable, hn] at h
    · simp [unregister_environment_variable, hn, save_registered_variables,
            lookupA_eraseA_self hvars, lookupA_eraseA_self henv]
  · intro h
    by_cases hn : (lookupA var_name st.registered_vars).isNone
    · simp [update_environment_variable, hn] at h
    · simp [update_environment_variable, hn, save_registered_variables,
            lookupA_insertA_self]

theorem C5_witness :
    lookupA "A"
        (unregister_environment_variable
          { registered_vars := [("A", "1")], environ := [("A", "1")],
            file := FileState.absent } "A").1.registered_vars = none ∧
    lookupA "A"
        (unregister_environment_variable
          { registered_vars := [("A", "1")], environ := [("A", "1")],
            file := FileState.absent } "A").1.environ = none :=
  (C5_registry_keeps_environ_in_sync
    { registered_vars := [("A", "1")], environ := [("A", "1")],
      file := FileState.absent } "A" "1" "2" true
    (by simp [keysA]) (by simp [keysA])).2.1 rfl

theorem insertA_eq_append {α : Type} {k : String} {v : α} {l : List (String × α)}
    (h : k ∉ keysA l) : insertA k v l = l ++ [(k, v)] := by
  induction l with
  | nil => simp [insertA]
  | cons p rest ih =>
    simp only [keysA, List.map_cons, List.mem_cons] at h
    push_neg at h
    simp [insertA, h.1, ih (by simpa [keysA] using h.2)]

theorem migrate_step_eq (acc : List (String × Json)) (p : String × Json)
    (h : p.1 ∉ keysA acc) :
    migrate_step acc p = acc ++ [(p.1, migrate_val p.2)] := by
  obtain ⟨k, v⟩ := p
  cases v
  case obj fields =>
    cases hl : lookupA "value" fields <;>
      simp [migrate_step, migrate_val, hl, insertA_eq_append h]
  all_goals simp [migrate_step, migrate_val, insertA_eq_append h]

theorem migrate_foldl (l acc : List (String × Json))
    (hnd : (keysA l).Nodup) (hdisj : ∀ k, k ∈ keysA l → k ∉ keysA acc) :
    l.foldl migrate_step acc = acc ++ l.map (fun p => (p.1, migrate_val p.2)) := by
  induction l generalizing acc with
  | nil => simp
  | cons p vs ih =>
    have hnd' : (keysA vs).Nodup :=
      (List.nodup_cons.mp (by simpa [keysA] using hnd)).2
    have hhd : p.1 ∉ keysA vs :=
      (List.nodup_cons.mp (by simpa [keysA] using hnd)).1
    simp only [List.foldl_cons]
    rw [migrate_step_eq acc p (hdisj p.1 (by simp [keysA])), ih _ hnd' ?_]
    · simp
    · intro k hk
      have hka : k ∉ keysA acc := hdisj k (List.mem_cons_of_mem p.1 hk)
      have hkp : k ≠ p.1 := fun he => hhd (he ▸ hk)
      intro hmem
      rw [show keysA (acc ++ [(p.1, migrate_val p.2)])
            = keysA acc ++ [p.1] by simp [keysA]] at hmem
      rcases List.mem_append.mp hmem with h1 | h2
      · exact hka h1
      · exact hkp (by simpa using h2)

theorem migrate_eq_map (env_vars : List (String × Json))
    (hnd : (keysA env_vars).Nodup) :
    migrate_environment_variables env_vars
      = env_vars.map (fun p => (p.1, migrate_val p.2)) := by
  simpa [migrate_environment_variables] using
    migrate_foldl env_vars [] hnd (by simp [keysA])

theorem keysA_map_val (l : List (String × Json)) (g : Json → Json) :
    keysA (l.map (fun p => (p.1, g p.2))) = keysA l := by
  induction l with
  | nil => rfl
  | cons p r ih =>
    simp only [keysA, List.map_cons] at ih ⊢
    rw [ih]

theorem lookupA_map_val (k : String) (l : List (String × Json)) (g : Json → Json) :
    lookupA k (l.map (fun p => (p.1, g p.2))) = (lookupA k l).map g := by
  induction l with
  | nil => rfl
  | cons p r ih =>
    by_cases h : k = p.1 <;> simp [lookupA, h, ih]

/-- C3: on a stored environment-variable dict (unique keys),
`_migrate_environment_variables` returns a map with exactly the same
variable names, in which every already-flat (non-dict) entry is kept
unchanged and every legacy nested record (a dict) with a `"value"` key is
mapped to the value stored under that key. -/
theorem C3_migration_preserves_names_and_values (env_vars : List (String × Json))
    (hnd : (keysA env_vars).Nodup) :
    keysA (migrate_environment_variables env_vars) = keysA env_vars ∧
    (∀ k v, lookupA k env_vars = some v →
      (is_dict v = false →
        lookupA k (migrate_environment_variables env_vars) = some v) ∧
      (∀ fields w, v = Json.obj fields → lookupA "value" fields = some w →
        lookupA k (migrate_environment_variables env_vars) = some w)) := by
  constructor
  · rw [migrate_eq_map env_vars hnd]
    exact keysA_map_val env_vars _
  · intro k v hv
    constructor
    · intro hflat
      rw [migrate_eq_map env_vars hnd, lookupA_map_val, hv]
      cases v
      case obj fields => simp [is_dict] at hflat
      all_goals simp [migrate_val]
    · intro fields w hvf hw
      subst hvf
      rw [migrate_eq_map env_vars hnd, lookupA_map_val, hv]
      simp [migrate_val, hw]

theorem C3_witness :
    lookupA "A"
        (migrate_environment_variables
          [("A", Json.obj [("value", Json.str "x")]), ("B", Json.str "y")])
      = some (Json.str "x") ∧
    lookupA "B"
        (migrate_environment_variables
          [("A", Json.obj [("value", Json.str "x")]), ("B", Json.str "y")])
      = some (Json.str "y") :=
  ⟨((C3_migration_preserves_names_and_values
      [("A", Json.obj [("value", Json.str "x")]), ("B", Json.str "y")]
      (by decide)).2 "A" (Json.obj [("value", Json.str "x")]) rfl).2
      [("value", Json.str "x")] (Json.str "x") rfl rfl,
   ((C3_migration_preserves_names_and_values
      [("A", Json.obj [("value", Json.str "x")]), ("B", Json.str "y")]
      (by decide)).2 "B" (Json.str "y") (by simp [lookupA])).1 rfl⟩

theorem count_zero_size (t : FSDir) :
    (count_and_size_bytes t).1 = 0 → (count_and_size_bytes t).2 = 0 := by
  induction t with
  | nil => simp [count_and_size_bytes]
  | consFile name size rest ih =>
    by_cases h : hidden_name name
    · simpa [count_and_size_bytes, h] using ih
    · simp [count_and_size_bytes, h]
  | consDir name children rest ihc ihr =>
    simp only [count_and_size_bytes]
    intro h
    have h1 := ihc (by omega)
    have h2 := ihr (by omega)
    omega

theorem count_and_size_copy_files (t : FSDir) :
    count_and_size_bytes (copy_files t) = count_and_size_bytes t := by
  induction t with
  | nil => rfl
  | consFile name size rest ih =>
    by_cases h : hidden_name name <;> simp [copy_files, count_and_size_bytes, h, ih]
  | consDir name children rest ihc ihr =>
    simp [copy_files, count_and_size_bytes, ihc, ihr]

/-- C4: if `_copy_sandbox_files(source, dest)` returns `True` on an
initially empty destination (no cancellation, no I/O errors), then
`_count_and_size_bytes` reports the same file count and total byte size for
the destination as for the source.  Both passes skip exactly the files whose
names start with `"."` or `"~"`, via the single predicate `hidden_name`. -/
theorem C4_copy_preserves_count_and_size (source dest : FSDir) (cancelled : Bool)
    (h : copy_sandbox_files source cancelled = some dest) :
    count_and_size_bytes dest = count_and_size_bytes source := by
  unfold copy_sandbox_files at h
  by_cases h0 : (count_and_size_bytes source).1 = 0
  · rw [if_pos h0] at h
    obtain rfl := Option.some.inj h
    have h2 := count_zero_size source h0
    rcases hp : count_and_size_bytes source with ⟨a, b⟩
    rw [hp] at h0 h2
    simp only at h0 h2
    subst h0
    subst h2
    rfl
  · rw [if_neg h0] at h
    cases cancelled with
    | true => simp at h
    | false =>
      simp only [if_neg Bool.false_ne_true, reduceIte] at h
      obtain rfl := Option.some.inj h
      exact count_and_size_copy_files source

theorem C4_witness :
    copy_sandbox_files (FSDir.consFile "a" 5 (FSDir.consFile ".h" 3 FSDir.nil)) false
      = some (FSDir.consFile "a" 5 FSDir.nil) ∧
    count_and_size_bytes (FSDir.consFile "a" 5 FSDir.nil)
      = count_and_size_bytes (FSDir.consFile "a" 5 (FSDir.consFile ".h" 3 FSDir.nil)) :=
  ⟨rfl, C4_copy_preserves_count_and_size
    (FSDir.consFile "a" 5 (FSDir.consFile ".h" 3 FSDir.nil))
    (FSDir.consFile "a" 5 FSDir.nil) false rfl⟩

/-- C8 counterexample: with the config file absent, the project `"p"` is not
present in the stored configuration and `delete_project` returns `True`, yet
the stored configuration does change: `load_config` initializes and writes
the default config file, so the file state afterwards differs from the
original, refuting `it does not write the file`. -/
theorem C8_counterexample :
    lookupA "p" (((load_config FileState.absent).1.projects).getD []) = none ∧
    (delete_project FileState.absent "p").2 = true ∧
    (delete_project FileState.absent "p").1 ≠ FileState.absent := by
  refine ⟨rfl, rfl, ?_⟩
  simp [delete_project, load_config, initialize_default_config, save_config,
        default_config, lookupA]

/-- C8 (amended): when the config file holds valid JSON, deleting a project
that is not present returns `True` and leaves the stored configuration,
file included, unchanged; deleting a present project removes exactly that
project's entry (it is gone, every other project is untouched) and saves.
The amendment restricts the no-write half to a valid-JSON file: on an
absent or unreadable file, `load_config` itself rewrites the file even
though `delete_project` does not save (see the counterexample). -/
theorem C8_delete_project_amended (c : Config) (p : String) :
    (lookupA p (c.projects.getD []) = none →
      delete_project (FileState.validJson c) p = (FileState.validJson c, true)) ∧
    (∀ ps, c.projects = some ps → (lookupA p ps).isSome = true →
      delete_project (FileState.validJson c) p =
        (FileState.validJson { c with projects := some (eraseA p ps) }, true) ∧
      ((keysA ps).Nodup → lookupA p (eraseA p ps) = none) ∧
      (∀ q, q ≠ p → lookupA q (eraseA p ps) = lookupA q ps)) := by
  constructor
  · intro h
    cases hp : c.projects with
    | none => simp [delete_project, load_config, hp]
    | some ps =>
      rw [hp] at h
      simp only [Option.getD_some] at h
      simp [delete_project, load_config, hp, h]
  · intro ps hps hs
    exact ⟨by simp [delete_project, load_config, hps, hs, save_config],
      fun hnd => lookupA_eraseA_self hnd,
      fun q hq => lookupA_eraseA_ne hq⟩

theorem C8_witness :
    delete_project (FileState.validJson default_config) "x"
      = (FileState.validJson default_config, true) ∧
    delete_project
        (FileState.validJson
          { projects := some [("p", [])], environment_variables := some [],
            last_selected_project := some Json.null }) "p"
      = (FileState.validJson
          { projects := some [], environment_variables := some [],
            last_selected_project := some Json.null }, true) :=
  ⟨(C8_delete_project_amended default_config "x").1 rfl,
   by
    have H := ((C8_delete_project_amended
      { projects := some [("p", [])], environment_variables := some [],
        last_selected_project := some Json.null } "p").2 [("p", [])] rfl rfl).1
    simpa [eraseA] using H⟩

/-- C9: the list `get_available_projects` returns never contains the project
name `"default"` and has no duplicate entries, and on the non-fallback path
(no exception, `server_fails = false`) it is additionally sorted
alphabetically.  The fallback conclusions assume the stored `projects` dict
has unique keys, as every Python dict does. -/
theorem C9_available_projects (ayon_projects : List String) (fs : FileState) :
    ("default" ∉ get_available_projects ayon_projects false fs ∧
      (get_available_projects ayon_projects false fs).Nodup ∧
      List.Pairwise (fun a b : String => a ≤ b)
        (get_available_projects ayon_projects false fs)) ∧
    ((keysA (((load_config fs).1.projects).getD [])).Nodup →
      "default" ∉ get_available_projects ayon_projects true fs ∧
      (get_available_projects ayon_projects true fs).Nodup) := by
  have htrans : ∀ a b c : String, decide (a ≤ b) = true → decide (b ≤ c) = true →
      decide (a ≤ c) = true := by
    intro a b c h1 h2
    simp only [decide_eq_true_eq] at h1 h2 ⊢
    exact le_trans h1 h2
  have htotal : ∀ a b : String, (decide (a ≤ b) || decide (b ≤ a)) = true := by
    intro a b
    rcases le_total a b with h | h <;> simp [h]
  constructor
  · have hmain : ∀ l : List String,
        "default" ∉ (l.dedup.erase "default").mergeSort (fun a b => a ≤ b) ∧
        ((l.dedup.erase "default").mergeSort (fun a b => a ≤ b)).Nodup ∧
        List.Pairwise (fun a b : String => a ≤ b)
          ((l.dedup.erase "default").mergeSort (fun a b => a ≤ b)) := by
      intro l
      have hnd : (l.dedup.erase "default").Nodup := (List.nodup_dedup l).erase _
      have hperm := List.mergeSort_perm (l.dedup.erase "default")
        (fun a b => decide (a ≤ b))
      refine ⟨?_, hperm.nodup_iff.mpr hnd, ?_⟩
      · intro hmem
        have h2 : "default" ∈ l.dedup.erase "default" := hperm.mem_iff.mp hmem
        rcases (List.Nodup.mem_erase_iff (List.nodup_dedup l)).mp h2 with ⟨hne, _⟩
        exact hne rfl
      · have hs := List.sorted_mergeSort htrans htotal (l.dedup.erase "default")
        exact hs.imp (fun h => by simpa using h)
    have h := hmain (ayon_projects ++ keysA (((load_config fs).1.projects).getD []))
    simpa [get_available_projects] using h
  · intro hnd
    constructor
    · intro hmem
      rcases (List.Nodup.mem_erase_iff hnd).mp
        (by simpa [get_available_projects] using hmem) with ⟨hne, _⟩
      exact hne rfl
    · simpa [get_available_projects] using hnd.erase "default"

theorem C9_witness :
    "default" ∉ get_available_projects ["x"] true
        (FileState.validJson
          { projects := some [("a", []), ("default", [])],
            environment_variables := some [],
            last_selected_project := some Json.null }) ∧
    (get_available_projects ["x"] true
        (FileState.validJson
          { projects := some [("a", []), ("default", [])],
            environment_variables := some [],
            last_selected_project := some Json.null })).Nodup :=
  (C9_available_projects ["x"]
    (FileState.validJson
      { projects := some [("a", []), ("default", [])],
        environment_variables := some [],
        last_selected_project := some Json.null })).2 (by decide)
